import Mathlib

set_option maxRecDepth 8000

/-!
Shallow embedding of `custom_components/localtuya/pytuya/__init__.py`
(the pytuya protocol engine of localtuya-homeassistant) and proofs about it.

Modelling conventions:
* Python `bytes` are `List Nat`, each element intended to be `< 256`
  (hypotheses state this where a proof needs it).
* Python `str` values are modelled by their UTF-8 byte sequence
  (`List Nat` again); `bytes.decode()` is `decodeStr`, which fails
  (models `UnicodeDecodeError`) on invalid UTF-8.
* The AES-ECB primitive comes from the external `cryptography` library,
  not from this repository; it is abstracted as a pair of functions
  `E D : Bytes → Bytes` over whole buffers, with the inverse and
  length-preservation laws it satisfies taken as hypotheses where needed.
  Likewise `hashlib.md5` is abstracted as a function parameter.
* Stateful methods become explicit state-passing functions; a Python
  exception escaping a method is modelled by an `Option String` error
  component alongside the (already mutated) object state, matching the
  fact that a Python object keeps its mutations when a method raises.
-/

namespace LocalTuya

/-- Python `bytes`: a list of byte values. -/
abbrev Bytes := List Nat

/-- Big-endian 4-byte encoding of an unsigned 32-bit value, as done by
`struct.pack(">I", n)` (the Python call raises for `n ≥ 2^32`; theorems
carry that bound as a hypothesis). -/
def be32 (n : Nat) : Bytes :=
  [n / 2 ^ 24 % 256, n / 2 ^ 16 % 256, n / 2 ^ 8 % 256, n % 256]

/-- Big-endian read of the first four bytes of a buffer, as done by
`struct.unpack(">I", data)` / `struct.unpack_from`. -/
def word32 : Bytes → Nat
  | a :: b :: c :: d :: _ => ((a * 256 + b) * 256 + c) * 256 + d
  | _ => 0

theorem length_be32 (n : Nat) : (be32 n).length = 4 := rfl

theorem word32_be32_append (n : Nat) (r : Bytes) (h : n < 2 ^ 32) :
    word32 (be32 n ++ r) = n := by
  simp only [be32, List.cons_append, List.nil_append, word32]
  omega

theorem drop_four_be32_append (n : Nat) (r : Bytes) : (be32 n ++ r).drop 4 = r := rfl

/-- `binascii.crc32`: one bit step of the reflected CRC-32 computation. -/
def crc32Step (c : Nat) : Nat :=
  if c % 2 = 1 then Nat.xor (c / 2) 0xEDB88320 else c / 2

/-- `binascii.crc32`: fold one input byte into the running CRC. -/
def crc32Byte (c b : Nat) : Nat :=
  (List.range 8).foldl (fun acc _ => crc32Step acc) (Nat.xor c b)

/-- `binascii.crc32(data)`: CRC-32 with initial value and final XOR
`0xFFFFFFFF`, reflected polynomial `0xEDB88320`. -/
def crc32 (data : Bytes) : Nat :=
  Nat.xor (data.foldl crc32Byte 0xFFFFFFFF) 0xFFFFFFFF

/-- `TuyaMessage = namedtuple("TuyaMessage", "seqno cmd retcode payload crc")`. -/
structure TuyaMessage where
  seqno : Nat
  cmd : Nat
  retcode : Nat
  payload : Bytes
  crc : Nat
  deriving DecidableEq, Repr

/-- The field names of the `TuyaMessage` namedtuple, in order; attribute
access on the namedtuple succeeds exactly for these names. -/
def tuyaMessageFields : List String := ["seqno", "cmd", "retcode", "payload", "crc"]

def PREFIX_VALUE : Nat := 0x000055AA
def SUFFIX_VALUE : Nat := 0x0000AA55

/-- `pack_message(msg)`: header `>4I` (prefix, seqno, cmd,
`len(payload) + 8`), then the payload, then `>2I` (crc32 of everything so
far, suffix). -/
def pack_message (msg : TuyaMessage) : Bytes :=
  let buffer :=
    be32 PREFIX_VALUE ++ be32 msg.seqno ++ be32 msg.cmd ++
      be32 (msg.payload.length + 8) ++ msg.payload
  buffer ++ be32 (crc32 buffer) ++ be32 SUFFIX_VALUE

/-- `unpack_message(data)`: reads the five-field receive header `>5I`
(prefix, seqno, cmd, length, retcode) from `data[:20]`, takes
`data[20:-8]` as payload, and reads `>2I` (crc, suffix) from `data[-8:]`.
`none` models the `struct.error` raised when `data[:20]` is shorter than
20 bytes. -/
def unpack_message (data : Bytes) : Option TuyaMessage :=
  if data.length < 20 then none
  else
    some
      { seqno := word32 (data.drop 4)
        cmd := word32 (data.drop 8)
        retcode := word32 (data.drop 16)
        payload := (data.drop 20).take (data.length - 28)
        crc := word32 (data.drop (data.length - 8)) }

theorem word32_append (l r : Bytes) (h : 4 ≤ l.length) :
    word32 (l ++ r) = word32 l := by
  match l with
  | a :: b :: c :: d :: t => rfl
  | [] | [_] | [_, _] | [_, _, _] => simp at h

theorem unpack_pack_core (m : TuyaMessage) (h1 : m.seqno < 2 ^ 32)
    (h2 : m.cmd < 2 ^ 32) (h4 : 4 ≤ m.payload.length) :
    ∃ m', unpack_message (pack_message m) = some m' ∧
      m'.seqno = m.seqno ∧ m'.cmd = m.cmd ∧
      m'.payload = m.payload.drop 4 ∧ m'.retcode = word32 m.payload := by
  obtain ⟨C, hC⟩ : ∃ C, pack_message m =
      be32 PREFIX_VALUE ++ (be32 m.seqno ++ (be32 m.cmd ++
        (be32 (m.payload.length + 8) ++
          (m.payload ++ (be32 C ++ be32 SUFFIX_VALUE))))) :=
    ⟨crc32 (be32 PREFIX_VALUE ++ (be32 m.seqno ++ (be32 m.cmd ++
        (be32 (m.payload.length + 8) ++ m.payload)))),
      by simp only [pack_message, List.append_assoc]⟩
  have hlen : (pack_message m).length = 24 + m.payload.length := by
    rw [hC]; simp [be32]; omega
  have hseq : word32 ((pack_message m).drop 4) = m.seqno := by
    rw [hC]
    show word32 (be32 m.seqno ++ _) = m.seqno
    exact word32_be32_append _ _ h1
  have hcmd : word32 ((pack_message m).drop 8) = m.cmd := by
    rw [hC]
    show word32 (be32 m.cmd ++ _) = m.cmd
    exact word32_be32_append _ _ h2
  have e16 : (pack_message m).drop 16 =
      m.payload ++ (be32 C ++ be32 SUFFIX_VALUE) := by rw [hC]; rfl
  have hret : word32 ((pack_message m).drop 16) = word32 m.payload := by
    rw [e16]; exact word32_append _ _ h4
  have e20 : (pack_message m).drop 20 =
      m.payload.drop 4 ++ (be32 C ++ be32 SUFFIX_VALUE) := by
    have h1620 : (pack_message m).drop 20 = ((pack_message m).drop 16).drop 4 := by
      rw [List.drop_drop]
    rw [h1620, e16, List.drop_append_of_le_length h4]
  have hpay : ((pack_message m).drop 20).take ((pack_message m).length - 28) =
      m.payload.drop 4 := by
    rw [hlen, e20, List.take_left' (by rw [List.length_drop]; omega)]
  have hunpack : unpack_message (pack_message m) =
      some
        { seqno := word32 ((pack_message m).drop 4)
          cmd := word32 ((pack_message m).drop 8)
          retcode := word32 ((pack_message m).drop 16)
          payload := ((pack_message m).drop 20).take ((pack_message m).length - 28)
          crc := word32 ((pack_message m).drop ((pack_message m).length - 8)) } := by
    unfold unpack_message
    rw [if_neg (by omega)]
  exact ⟨_, hunpack, hseq, hcmd, hpay, hret⟩

/-- C2: the spec claims `unpack_message (pack_message m)` reproduces `m`'s
sequence number, command and payload exactly; it does not.  `pack_message`
writes the 16-byte send header (no return code) while `unpack_message`
parses the 20-byte receive header, so the payload's first four bytes are
consumed as the return-code field.  Concretely, packing a message with
payload `b"ABCD"` and unpacking the result yields an empty payload. -/
theorem C2_counterexample :
    (unpack_message (pack_message ⟨1, 2, 0, [65, 66, 67, 68], 0⟩)).map
        (fun m => (m.seqno, m.cmd, m.payload)) ≠ some (1, 2, [65, 66, 67, 68]) := by
  decide

/-- C2 (amended): for any message whose sequence number and command fit in
32 bits and whose payload has at least four bytes, `unpack_message ∘
pack_message` reproduces the sequence number and command exactly, while
the payload comes back with its first four bytes stripped — they are
parsed as the receive-header's return-code field. -/
theorem C2_unpack_pack_message (m : TuyaMessage) (h1 : m.seqno < 2 ^ 32)
    (h2 : m.cmd < 2 ^ 32) (h4 : 4 ≤ m.payload.length) :
    ∃ m', unpack_message (pack_message m) = some m' ∧
      m'.seqno = m.seqno ∧ m'.cmd = m.cmd ∧
      m'.payload = m.payload.drop 4 ∧ m'.retcode = word32 m.payload :=
  unpack_pack_core m h1 h2 h4

/-- Witness for C2 (amended) at a concrete message. -/
theorem C2_unpack_pack_message_witness :
    ∃ m', unpack_message (pack_message ⟨1, 2, 0, [65, 66, 67, 68], 0⟩) = some m' ∧
      m'.seqno = 1 ∧ m'.cmd = 2 ∧ m'.payload = [65, 66, 67, 68].drop 4 ∧
      m'.retcode = word32 [65, 66, 67, 68] :=
  C2_unpack_pack_message ⟨1, 2, 0, [65, 66, 67, 68], 0⟩ (by decide) (by decide)
    (by decide)

/-! ### base64 (external `base64` stdlib used by `AESCipher`) -/

/-- The base64 alphabet: six-bit value to ASCII code. -/
def sixToChar (n : Nat) : Nat :=
  if n < 26 then 65 + n
  else if n < 52 then 71 + n
  else if n < 62 then n - 4
  else if n = 62 then 43
  else 47

/-- Inverse of the base64 alphabet on ASCII codes of alphabet characters. -/
def charToSix (c : Nat) : Nat :=
  if 65 ≤ c ∧ c ≤ 90 then c - 65
  else if 97 ≤ c ∧ c ≤ 122 then c - 71
  else if 48 ≤ c ∧ c ≤ 57 then c + 4
  else if c = 43 then 62
  else 63

/-- Modelled from the spec: `base64.b64encode` from the Python standard
library (external to this repository) — groups of three bytes become four
alphabet characters, with `=` (61) padding for trailing groups of one or
two bytes. -/
def b64encode : Bytes → Bytes
  | [] => []
  | [a] => [sixToChar (a / 4), sixToChar (a % 4 * 16), 61, 61]
  | [a, b] =>
      [sixToChar (a / 4), sixToChar (a % 4 * 16 + b / 16), sixToChar (b % 16 * 4), 61]
  | a :: b :: c :: rest =>
      sixToChar (a / 4) :: sixToChar (a % 4 * 16 + b / 16) ::
        sixToChar (b % 16 * 4 + c / 64) :: sixToChar (c % 64) :: b64encode rest

/-- Modelled from the spec: `base64.b64decode` from the Python standard
library (external to this repository), on canonical encodings — exactly
the outputs of `b64encode`.  `none` models `binascii.Error` on a
malformed length; inputs that are not canonical encodings are outside
what the claims exercise. -/
def b64decode : Bytes → Option Bytes
  | [] => some []
  | c1 :: c2 :: c3 :: c4 :: rest =>
      if c4 = 61 then
        if rest = [] then
          if c3 = 61 then some [charToSix c1 * 4 + charToSix c2 / 16]
          else
            some [charToSix c1 * 4 + charToSix c2 / 16,
              charToSix c2 % 16 * 16 + charToSix c3 / 4]
        else none
      else
        (b64decode rest).map fun tail =>
          (charToSix c1 * 4 + charToSix c2 / 16) ::
            (charToSix c2 % 16 * 16 + charToSix c3 / 4) ::
            (charToSix c3 % 4 * 64 + charToSix c4) :: tail
  | _ => none

theorem charToSix_sixToChar {n : Nat} (h : n < 64) : charToSix (sixToChar n) = n := by
  have hfin : ∀ m : Fin 64, charToSix (sixToChar m.val) = m.val := by decide
  exact hfin ⟨n, h⟩

theorem sixToChar_ne_61 {n : Nat} (h : n < 64) : sixToChar n ≠ 61 := by
  have hfin : ∀ m : Fin 64, sixToChar m.val ≠ 61 := by decide
  exact hfin ⟨n, h⟩

theorem b64_roundtrip : ∀ x : Bytes, (∀ b ∈ x, b < 256) →
    b64decode (b64encode x) = some x
  | [], _ => rfl
  | [a], h => by
      have ha : a < 256 := h a (by simp)
      show some [charToSix (sixToChar (a / 4)) * 4 +
          charToSix (sixToChar (a % 4 * 16)) / 16] = some [a]
      rw [charToSix_sixToChar (by omega), charToSix_sixToChar (by omega)]
      simp only [Option.some.injEq, List.cons.injEq, and_true]
      omega
  | [a, b], h => by
      have ha : a < 256 := h a (by simp)
      have hb : b < 256 := h b (by simp)
      show (if sixToChar (b % 16 * 4) = 61 then
          some [charToSix (sixToChar (a / 4)) * 4 +
            charToSix (sixToChar (a % 4 * 16 + b / 16)) / 16]
        else
          some [charToSix (sixToChar (a / 4)) * 4 +
              charToSix (sixToChar (a % 4 * 16 + b / 16)) / 16,
            charToSix (sixToChar (a % 4 * 16 + b / 16)) % 16 * 16 +
              charToSix (sixToChar (b % 16 * 4)) / 4]) = some [a, b]
      rw [if_neg (sixToChar_ne_61 (by omega))]
      rw [charToSix_sixToChar (by omega), charToSix_sixToChar (by omega),
        charToSix_sixToChar (by omega)]
      simp only [Option.some.injEq, List.cons.injEq, and_true]
      constructor <;> omega
  | a :: b :: c :: rest, h => by
      have ha : a < 256 := h a (by simp)
      have hb : b < 256 := h b (by simp)
      have hc : c < 256 := h c (by simp)
      have ih := b64_roundtrip rest fun x hx => h x (by simp [hx])
      simp only [b64encode, b64decode,
        if_neg (sixToChar_ne_61 (n := c % 64) (by omega))]
      rw [ih]
      simp only [Option.map_some', Option.some.injEq, List.cons.injEq, and_true]
      rw [charToSix_sixToChar (by omega), charToSix_sixToChar (by omega),
        charToSix_sixToChar (by omega), charToSix_sixToChar (by omega)]
      refine ⟨?_, ?_, ?_⟩ <;> omega

/-! ### UTF-8 validity (`bytes.decode()`) -/

/-- A UTF-8 continuation byte. -/
def contByte (b : Nat) : Bool := decide (128 ≤ b ∧ b ≤ 191)

/-- Modelled from the spec: validity of a byte sequence under Python's
`bytes.decode()` (strict UTF-8); `decode` raises `UnicodeDecodeError`
exactly when this is false. -/
def validUtf8 : Bytes → Bool
  | [] => true
  | b :: rest =>
    if b < 128 then validUtf8 rest
    else if 194 ≤ b ∧ b ≤ 223 then
      match rest with
      | c :: r => contByte c && validUtf8 r
      | [] => false
    else if b = 224 then
      match rest with
      | c :: d :: r => decide (160 ≤ c ∧ c ≤ 191) && contByte d && validUtf8 r
      | _ => false
    else if (225 ≤ b ∧ b ≤ 236) ∨ b = 238 ∨ b = 239 then
      match rest with
      | c :: d :: r => contByte c && contByte d && validUtf8 r
      | _ => false
    else if b = 237 then
      match rest with
      | c :: d :: r => decide (128 ≤ c ∧ c ≤ 159) && contByte d && validUtf8 r
      | _ => false
    else if b = 240 then
      match rest with
      | c :: d :: e :: r =>
          decide (144 ≤ c ∧ c ≤ 191) && contByte d && contByte e && validUtf8 r
      | _ => false
    else if 241 ≤ b ∧ b ≤ 243 then
      match rest with
      | c :: d :: e :: r => contByte c && contByte d && contByte e && validUtf8 r
      | _ => false
    else if b = 244 then
      match rest with
      | c :: d :: e :: r =>
          decide (128 ≤ c ∧ c ≤ 143) && contByte d && contByte e && validUtf8 r
      | _ => false
    else false

/-- `bytes.decode()`: a Python `str` is modelled by its UTF-8 bytes, so
decoding is the identity on valid UTF-8 and an error (`none`, modelling
`UnicodeDecodeError`) otherwise. -/
def decodeStr (b : Bytes) : Option Bytes :=
  if validUtf8 b then some b else none

/-! ### AESCipher -/

/-- `AESCipher._pad`: append `padnum = 16 - len % 16` copies of the byte
`padnum`. -/
def cipher_pad (s : Bytes) : Bytes :=
  s ++ List.replicate (16 - s.length % 16) (16 - s.length % 16)

/-- `AESCipher._unpad`: `s[: -ord(s[len(s) - 1 :])]` — trust the final
byte as the pad count and strip that many trailing bytes.  (For empty `s`
Python would raise; the padded buffers this is applied to are never
empty.) -/
def cipher_unpad (s : Bytes) : Bytes :=
  s.take (s.length - s.getD (s.length - 1) 0)

/-- `AESCipher.encrypt(raw, use_base64)`.  The AES-ECB primitive of the
external `cryptography` library is abstracted as the whole-buffer
function `E`. -/
def cipher_encrypt (E : Bytes → Bytes) (raw : Bytes) (use_base64 : Bool) : Bytes :=
  let crypted := E (cipher_pad raw)
  if use_base64 then b64encode crypted else crypted

/-- The byte-level part of `AESCipher.decrypt(enc, use_base64)`: optional
base64 decode, AES decrypt (abstracted as `D`), unpad — everything before
the final `.decode()` to `str`. -/
def cipher_decrypt_bytes (D : Bytes → Bytes) (enc : Bytes) (use_base64 : Bool) :
    Option Bytes :=
  if use_base64 then (b64decode enc).map fun e => cipher_unpad (D e)
  else some (cipher_unpad (D enc))

/-- `AESCipher.decrypt(enc, use_base64)`: the byte-level transform
followed by `.decode()` (UTF-8). -/
def cipher_decrypt (D : Bytes → Bytes) (enc : Bytes) (use_base64 : Bool) :
    Option Bytes :=
  (cipher_decrypt_bytes D enc use_base64).bind decodeStr

theorem length_cipher_pad (s : Bytes) :
    (cipher_pad s).length = s.length + (16 - s.length % 16) := by
  simp [cipher_pad]

theorem length_cipher_pad_mod (s : Bytes) : (cipher_pad s).length % 16 = 0 := by
  rw [length_cipher_pad]
  omega

theorem cipher_unpad_pad (s : Bytes) : cipher_unpad (cipher_pad s) = s := by
  have h1 : 1 ≤ 16 - s.length % 16 := by omega
  have hget : (cipher_pad s).getD ((cipher_pad s).length - 1) 0 =
      16 - s.length % 16 := by
    rw [length_cipher_pad, cipher_pad]
    have hge : s.length ≤ s.length + (16 - s.length % 16) - 1 := by omega
    rw [List.getD_eq_getElem?_getD, List.getElem?_append_right hge,
      List.getElem?_replicate]
    rw [if_pos (by omega)]
    rfl
  rw [cipher_unpad, hget, length_cipher_pad]
  have : s.length + (16 - s.length % 16) - (16 - s.length % 16) = s.length := by omega
  rw [this, cipher_pad, List.take_append_of_le_length (by omega), List.take_length]

theorem pad_bytes_lt (s : Bytes) (hs : ∀ b ∈ s, b < 256) :
    ∀ b ∈ cipher_pad s, b < 256 := by
  intro b hb
  rcases List.mem_append.mp hb with h | h
  · exact hs b h
  · have := List.eq_of_mem_replicate h
    omega

/-- C6: the claim `decrypt(encrypt(p, k), k) == p` for *every* byte string
`p` is false on the code: `decrypt` ends with `.decode()`, which raises
`UnicodeDecodeError` when the recovered plaintext is not valid UTF-8.
Concrete input: `p = b"\xff"` (with any correct AES inverse pair — shown
here with the identity block transform, through which the failure is
independent of the cipher): decryption fails instead of returning `p`. -/
theorem C6_counterexample :
    cipher_decrypt (fun x => x) (cipher_encrypt (fun x => x) [255] true) true
      ≠ some [255] := by decide

/-- C6 (amended): for every inverse, byte-valued AES pair and every byte
string `p`, the byte-level round trip recovers `p` exactly, for both the
base64 and the raw variant; the full `decrypt` (which additionally
decodes to `str`) returns `p` precisely when `p` is valid UTF-8, and
raises `UnicodeDecodeError` otherwise. -/
theorem C6_cipher_roundtrip (E D : Bytes → Bytes)
    (hInv : ∀ x, x.length % 16 = 0 → D (E x) = x)
    (hBytes : ∀ x, (∀ b ∈ x, b < 256) → ∀ b ∈ E x, b < 256)
    (p : Bytes) (hp : ∀ b ∈ p, b < 256) :
    cipher_decrypt_bytes D (cipher_encrypt E p true) true = some p ∧
    cipher_decrypt_bytes D (cipher_encrypt E p false) false = some p ∧
    (cipher_decrypt D (cipher_encrypt E p true) true = some p ↔ validUtf8 p = true) ∧
    (cipher_decrypt D (cipher_encrypt E p false) false = some p ↔
      validUtf8 p = true) := by
  have hcore : cipher_unpad (D (E (cipher_pad p))) = p := by
    rw [hInv _ (length_cipher_pad_mod p), cipher_unpad_pad]
  have hraw : cipher_decrypt_bytes D (cipher_encrypt E p false) false = some p := by
    show some (cipher_unpad (D (E (cipher_pad p)))) = some p
    rw [hcore]
  have hb64 : cipher_decrypt_bytes D (cipher_encrypt E p true) true = some p := by
    show (b64decode (b64encode (E (cipher_pad p)))).map
        (fun e => cipher_unpad (D e)) = some p
    rw [b64_roundtrip _ (hBytes _ (pad_bytes_lt p hp))]
    show some (cipher_unpad (D (E (cipher_pad p)))) = some p
    rw [hcore]
  have hiff : ∀ o : Option Bytes, o = some p →
      (o.bind decodeStr = some p ↔ validUtf8 p = true) := by
    intro o ho
    subst ho
    show decodeStr p = some p ↔ validUtf8 p = true
    rw [decodeStr]
    by_cases hv : validUtf8 p
    · simp [hv]
    · simp [hv]
  exact ⟨hb64, hraw, hiff _ hb64, hiff _ hraw⟩

/-- Witness for C6 (amended) with the identity block transform and the
two-byte ASCII plaintext `"hi"`. -/
theorem C6_cipher_roundtrip_witness :
    cipher_decrypt_bytes (fun x => x) (cipher_encrypt (fun x => x) [104, 105] true)
        true = some [104, 105] ∧
    cipher_decrypt_bytes (fun x => x) (cipher_encrypt (fun x => x) [104, 105] false)
        false = some [104, 105] ∧
    (cipher_decrypt (fun x => x) (cipher_encrypt (fun x => x) [104, 105] true) true =
        some [104, 105] ↔ validUtf8 [104, 105] = true) ∧
    (cipher_decrypt (fun x => x) (cipher_encrypt (fun x => x) [104, 105] false) false =
        some [104, 105] ↔ validUtf8 [104, 105] = true) :=
  C6_cipher_roundtrip (fun x => x) (fun x => x) (fun _ _ => rfl) (fun _ h => h)
    [104, 105] (by decide)

/-- C7: the conjunct "the encrypt output length is always a multiple of
16" is false on the code for the base64 variant (the default
`use_base64=True`): encrypting the empty byte string yields a 24-byte
base64 text, and `24 % 16 ≠ 0`. -/
theorem C7_counterexample :
    (cipher_encrypt (fun x => x) [] true).length = 24 ∧ 24 % 16 ≠ 0 := by decide

/-- C7 (amended): the pad count equals `16 - len mod 16`, is never 0, and
is 16 exactly when the length is a multiple of 16; the *raw*
(`use_base64=False`) encrypt output length is always a multiple of 16
(the base64 variant's text length is not); and unpadding recovers every
padded input exactly, in particular its length, for every input length
(0 through 31 included). -/
theorem C7_padding_law (E : Bytes → Bytes) (hLen : ∀ x, (E x).length = x.length)
    (s : Bytes) :
    cipher_pad s = s ++ List.replicate (16 - s.length % 16) (16 - s.length % 16) ∧
    16 - s.length % 16 ≠ 0 ∧
    (s.length % 16 = 0 → 16 - s.length % 16 = 16) ∧
    (cipher_encrypt E s false).length % 16 = 0 ∧
    cipher_unpad (cipher_pad s) = s ∧
    (cipher_unpad (cipher_pad s)).length = s.length := by
  refine ⟨rfl, by omega, by omega, ?_, cipher_unpad_pad s, by rw [cipher_unpad_pad]⟩
  simp only [cipher_encrypt, Bool.false_eq_true, if_false]
  rw [hLen]
  exact length_cipher_pad_mod s

/-- Witness for C7 (amended) with the identity block transform at a
three-byte input. -/
theorem C7_padding_law_witness :
    cipher_pad [1, 2, 3] =
        [1, 2, 3] ++ List.replicate (16 - [1, 2, 3].length % 16)
          (16 - [1, 2, 3].length % 16) ∧
    16 - [1, 2, 3].length % 16 ≠ 0 ∧
    ([1, 2, 3].length % 16 = 0 → 16 - [1, 2, 3].length % 16 = 16) ∧
    (cipher_encrypt (fun x => x) [1, 2, 3] false).length % 16 = 0 ∧
    cipher_unpad (cipher_pad [1, 2, 3]) = [1, 2, 3] ∧
    (cipher_unpad (cipher_pad [1, 2, 3])).length = [1, 2, 3].length :=
  C7_padding_law (fun x => x) (fun _ => rfl) [1, 2, 3]

/-! ### MessageDispatcher -/

/-- The value stored at `self.listeners[seqno]`: an `asyncio.Semaphore(0)`
while the waiter is blocked (`waiting`), or the value the releaser stored
in its place (`some msg` from `_dispatch`, `none` from `abort`). -/
inductive Slot where
  | waiting : Slot
  | done : Option TuyaMessage → Slot
  deriving DecidableEq, Repr

/-- State of a `MessageDispatcher`, with ghost fields recording its
observable effects: `dispatched` logs every message handed to
`_dispatch`, `statusCalls` logs every invocation of the status-push
`listener` callback, and `released` logs every semaphore release (one
entry per woken waiter). -/
structure Dispatcher where
  buffer : Bytes
  listeners : List (Nat × Slot)
  last_seqno : Int
  dispatched : List TuyaMessage
  statusCalls : List TuyaMessage
  released : List Nat
  deriving DecidableEq, Repr

/-- `MessageDispatcher.__init__`: empty buffer, no listeners,
`last_seqno = -1`. -/
def Dispatcher.init : Dispatcher := ⟨[], [], -1, [], [], []⟩

/-- Lookup in the `listeners` dict (modelled as an association list in
insertion order, as Python dicts preserve insertion order). -/
def lookupSlot : List (Nat × Slot) → Nat → Option Slot
  | [], _ => none
  | (k, s) :: rest, q => if k = q then some s else lookupSlot rest q

/-- `self.listeners[seqno] = v` for an existing key (in-place update,
position preserved). -/
def setSlot : List (Nat × Slot) → Nat → Slot → List (Nat × Slot)
  | [], _, _ => []
  | (k, s) :: rest, q, v =>
      if k = q then (k, v) :: rest else (k, s) :: setSlot rest q v

/-- `self.listeners.pop(seqno)`: remove the key. -/
def removeSlot : List (Nat × Slot) → Nat → List (Nat × Slot)
  | [], _ => []
  | (k, s) :: rest, q => if k = q then rest else (k, s) :: removeSlot rest q

/-- `MessageDispatcher._dispatch(msg)`.  The second component is
`some err` when the Python method raises with the mutated state kept
(Python objects keep their mutations when a method raises).  Note the
final branch: the source logs `msg.command`, but the `TuyaMessage`
namedtuple's fields are `seqno cmd retcode payload crc`, so the attribute
lookup fails and the logging call raises `AttributeError` before logging
anything; the membership test on `tuyaMessageFields` models that
attribute lookup. -/
def dispatchMsg (d : Dispatcher) (m : TuyaMessage) : Dispatcher × Option String :=
  let d1 : Dispatcher :=
    { d with last_seqno := max d.last_seqno (m.seqno : Int)
             dispatched := d.dispatched ++ [m] }
  match lookupSlot d.listeners m.seqno with
  | some Slot.waiting =>
      ({ d1 with listeners := setSlot d1.listeners m.seqno (Slot.done (some m))
                 released := d1.released ++ [m.seqno] }, none)
  | some (Slot.done _) =>
      -- `sem` is a stored message or `None`; neither has `.release()`.
      (d1, some "AttributeError: release")
  | none =>
      if m.cmd = 9 then (d1, none)
      else if m.cmd = 8 then
        ({ d1 with statusCalls := d1.statusCalls ++ [m] }, none)
      else
        if "command" ∈ tuyaMessageFields then (d1, none)
        else (d1, some "AttributeError: TuyaMessage object has no attribute command")

/-- The loop body of `MessageDispatcher.abort()`: iterate the listener
entries in order; each entry's stored semaphore is replaced by `None` and
then released (appending its key to the release log); if a slot does not
hold a semaphore, the `.release()` call raises after the slot was already
overwritten. -/
def abortGo : List (Nat × Slot) → List (Nat × Slot) × List Nat × Option String
  | [] => ([], [], none)
  | (k, Slot.waiting) :: rest =>
      let (l, r, e) := abortGo rest
      ((k, Slot.done none) :: l, k :: r, e)
  | (k, Slot.done _) :: rest =>
      ((k, Slot.done none) :: rest, [], some "AttributeError: release")

/-- `MessageDispatcher.abort()`. -/
def abort (d : Dispatcher) : Dispatcher × Option String :=
  let (l, r, e) := abortGo d.listeners
  ({ d with listeners := l, released := d.released ++ r }, e)

/-- Outcome of the synchronous prefix of `MessageDispatcher.wait_for`:
the stale-sequence fast path returns `None` without touching the
registry; a duplicate registration raises; otherwise a fresh semaphore is
registered (appended, as Python dict insertion does) and the caller
starts awaiting it. -/
inductive WaitStart where
  | retNone : WaitStart
  | raiseExists : WaitStart
  | registered : Dispatcher → WaitStart
  deriving DecidableEq, Repr

/-- The synchronous prefix of `MessageDispatcher.wait_for(seqno)` (up to
the `await`). -/
def wait_for_start (d : Dispatcher) (seqno : Nat) : WaitStart :=
  if (seqno : Int) ≤ d.last_seqno then WaitStart.retNone
  else if (lookupSlot d.listeners seqno).isSome then WaitStart.raiseExists
  else WaitStart.registered
    { d with listeners := d.listeners ++ [(seqno, Slot.waiting)] }

/-- The resume of a woken `wait_for(seqno)`:
`return self.listeners.pop(seqno)` — removes the key and returns the
stored value (`none` when the waiter was aborted; the `waiting` case is
never reached, a waiter only resumes after its slot was overwritten). -/
def waitResume (d : Dispatcher) (seqno : Nat) : Option TuyaMessage × Dispatcher :=
  match lookupSlot d.listeners seqno with
  | some (Slot.done v) => (v, { d with listeners := removeSlot d.listeners seqno })
  | _ => (none, { d with listeners := removeSlot d.listeners seqno })

/-- Resume a list of woken waiters in turn, collecting their results. -/
def resumeAll (d : Dispatcher) : List Nat → List (Option TuyaMessage) × Dispatcher
  | [] => ([], d)
  | k :: ks =>
      let (v, d') := waitResume d k
      let (vs, d'') := resumeAll d' ks
      (v :: vs, d'')

theorem abortGo_waiting (l : List (Nat × Slot))
    (hw : ∀ p ∈ l, p.2 = Slot.waiting) :
    abortGo l = (l.map (fun p => (p.1, Slot.done none)), l.map Prod.fst, none) := by
  induction l with
  | nil => rfl
  | cons p rest ih =>
      obtain ⟨k, s⟩ := p
      have hs : s = Slot.waiting := hw (k, s) (by simp)
      subst hs
      simp only [abortGo]
      rw [ih fun p hp => hw p (by simp [hp])]
      simp

theorem resumeAll_done (ks : List Nat) : ∀ d : Dispatcher,
    d.listeners = ks.map (fun k => (k, Slot.done none)) →
    (resumeAll d ks).1 = List.replicate ks.length none ∧
      (resumeAll d ks).2.listeners = [] := by
  induction ks with
  | nil => intro d h; exact ⟨rfl, h⟩
  | cons k ks ih =>
      intro d h
      have hres : waitResume d k =
          (none, { d with listeners := ks.map (fun k => (k, Slot.done none)) }) := by
        rw [waitResume, h]
        simp [lookupSlot, removeSlot]
      rw [resumeAll, hres]
      have := ih { d with listeners := ks.map (fun k => (k, Slot.done none)) } rfl
      simp only [List.length_cons, List.replicate_succ]
      exact ⟨by rw [this.1], this.2⟩

/-- C4: the spec claims that immediately after `abort()` returns the
outstanding-request registry is empty; it is not.  `abort` overwrites
every listener value with `None` but never removes the keys — with one
outstanding waiter for sequence number 5, the registry still holds that
key (now mapped to the `None` sentinel) when `abort` returns. -/
theorem C4_counterexample :
    (abort { Dispatcher.init with listeners := [(5, Slot.waiting)] }).1.listeners
      ≠ [] := by decide

/-- C4 (amended): with K outstanding waiters, `abort()` returns without
raising, wakes every one of the K waiters exactly once (one semaphore
release per registered key, in order) with the no-result sentinel
(`None` stored in its slot), and leaves the registry holding all K keys
mapped to that sentinel — not empty.  Each woken waiter removes its own
entry as it resumes and receives `None`, so only after all K waiters
have resumed is the registry empty. -/
theorem C4_abort_semantics (d : Dispatcher)
    (hw : ∀ p ∈ d.listeners, p.2 = Slot.waiting) :
    (abort d).2 = none ∧
    (abort d).1.listeners = d.listeners.map (fun p => (p.1, Slot.done none)) ∧
    (abort d).1.released = d.released ++ d.listeners.map Prod.fst ∧
    (resumeAll (abort d).1 (d.listeners.map Prod.fst)).1 =
      List.replicate d.listeners.length none ∧
    (resumeAll (abort d).1 (d.listeners.map Prod.fst)).2.listeners = [] := by
  have hgo := abortGo_waiting d.listeners hw
  have habort : abort d =
      ({ d with listeners := d.listeners.map (fun p => (p.1, Slot.done none)),
                released := d.released ++ d.listeners.map Prod.fst }, none) := by
    rw [abort, hgo]
  rw [habort]
  have hres := resumeAll_done (d.listeners.map Prod.fst)
      { d with listeners := d.listeners.map (fun p => (p.1, Slot.done none)),
               released := d.released ++ d.listeners.map Prod.fst }
      (by simp [Function.comp])
  refine ⟨rfl, rfl, rfl, ?_, hres.2⟩
  rw [hres.1, List.length_map]

/-- Witness for C4 (amended) with two outstanding waiters. -/
theorem C4_abort_semantics_witness :
    (abort { Dispatcher.init with
      listeners := [(1, Slot.waiting), (2, Slot.waiting)] }).2 = none ∧
    (abort { Dispatcher.init with
      listeners := [(1, Slot.waiting), (2, Slot.waiting)] }).1.listeners =
      [(1, Slot.waiting), (2, Slot.waiting)].map (fun p => (p.1, Slot.done none)) ∧
    (abort { Dispatcher.init with
      listeners := [(1, Slot.waiting), (2, Slot.waiting)] }).1.released =
      [] ++ [(1, Slot.waiting), (2, Slot.waiting)].map Prod.fst ∧
    (resumeAll (abort { Dispatcher.init with
        listeners := [(1, Slot.waiting), (2, Slot.waiting)] }).1
        ([(1, Slot.waiting), (2, Slot.waiting)].map Prod.fst)).1 =
      List.replicate [(1, Slot.waiting), (2, Slot.waiting)].length none ∧
    (resumeAll (abort { Dispatcher.init with
        listeners := [(1, Slot.waiting), (2, Slot.waiting)] }).1
        ([(1, Slot.waiting), (2, Slot.waiting)].map Prod.fst)).2.listeners = [] :=
  C4_abort_semantics
    { Dispatcher.init with listeners := [(1, Slot.waiting), (2, Slot.waiting)] }
    (by decide)

/-- C5: the claim (and the spec) says an unmatched frame whose command is
neither 0x09 nor 0x08 is logged and discarded and `_dispatch` never
raises.  The code instead raises `AttributeError`: the logging call reads
`msg.command`, but the namedtuple field is named `cmd`.  Evaluated at the
failing input — a fresh dispatcher (no registered waiter) and a frame
with sequence number 1 and command 0x0A — `_dispatch` raises. -/
theorem C5_dispatch_raises :
    (dispatchMsg Dispatcher.init ⟨1, 10, 0, [], 0⟩).2 =
      some "AttributeError: TuyaMessage object has no attribute command" := by
  decide

theorem dispatch_buffer (d : Dispatcher) (m : TuyaMessage) :
    (dispatchMsg d m).1.buffer = d.buffer := by
  rw [dispatchMsg]
  rcases lookupSlot d.listeners m.seqno with _ | s
  · dsimp only
    split <;> [rfl; skip]
    split <;> [rfl; skip]
    split <;> rfl
  · cases s <;> rfl

/-- The `while` loop of `MessageDispatcher.add_data`: parse the five-word
receive header from the front of the buffer; stop (keeping the buffer)
when fewer than 20 bytes are buffered or the buffer holds fewer than
`16 + length` bytes; otherwise slice one frame out
(`payload_length = length - 4 - 8`, frame occupies `16 + length` bytes),
advance the buffer past it, dispatch it, and loop.  A raise from
`_dispatch` propagates, ending the loop with the buffer already
advanced.  (For a malformed header with `length < 12` Python's negative
slice bounds degenerate; well-formed receive frames always have
`length ≥ 12`, and truncated subtraction models that case.) -/
def runLoop (d : Dispatcher) : Dispatcher × Option String :=
  if h20 : d.buffer.length < 20 then (d, none)
  else
    let length := word32 (d.buffer.drop 12)
    if hlen : d.buffer.length - 16 < length then (d, none)
    else
      let msg : TuyaMessage :=
        { seqno := word32 (d.buffer.drop 4)
          cmd := word32 (d.buffer.drop 8)
          retcode := word32 (d.buffer.drop 16)
          payload := (d.buffer.drop 20).take (length - 12)
          crc := word32 (d.buffer.drop (8 + length)) }
      let d1 : Dispatcher := { d with buffer := d.buffer.drop (16 + length) }
      let r := dispatchMsg d1 msg
      if r.2.isSome then r else runLoop r.1
  termination_by d.buffer.length
  decreasing_by
    simp only [dispatch_buffer, List.length_drop]
    omega

/-- `MessageDispatcher.add_data(data)`: append to the buffer and run the
parse loop. -/
def add_data (d : Dispatcher) (data : Bytes) : Dispatcher × Option String :=
  runLoop { d with buffer := d.buffer ++ data }

/-- Feed a sequence of transport chunks to `add_data` in turn (a raise
stops the run, as it would propagate out of `data_received`). -/
def feedAll (d : Dispatcher) : List Bytes → Dispatcher × Option String
  | [] => (d, none)
  | c :: cs =>
      if (add_data d c).2.isSome then add_data d c
      else feedAll (add_data d c).1 cs

/-- The bytes of one complete well-formed receive-direction frame for
message `m`: five-word header (prefix, seqno, cmd, `length`, retcode)
with `length = payload length + 12` (counting retcode, crc and suffix, as
`add_data` expects), then payload, crc, suffix. -/
def recvFrame (m : TuyaMessage) : Bytes :=
  be32 PREFIX_VALUE ++ be32 m.seqno ++ be32 m.cmd ++
    be32 (m.payload.length + 12) ++ be32 m.retcode ++ m.payload ++
    be32 m.crc ++ be32 SUFFIX_VALUE

/-- Field bounds making a `TuyaMessage` representable on the wire. -/
def Wellformed (m : TuyaMessage) : Prop :=
  m.seqno < 2 ^ 32 ∧ m.cmd < 2 ^ 32 ∧ m.retcode < 2 ^ 32 ∧ m.crc < 2 ^ 32 ∧
    m.payload.length + 12 < 2 ^ 32

/-- A buffer on which the `add_data` loop stalls waiting for more data:
shorter than the 20-byte receive header, or shorter than the total frame
length its header declares. -/
def Incomplete (tail : Bytes) : Prop :=
  tail.length < 20 ∨ tail.length - 16 < word32 (tail.drop 12)

instance (m : TuyaMessage) : Decidable (Wellformed m) := by
  unfold Wellformed
  exact inferInstance

instance (tail : Bytes) : Decidable (Incomplete tail) := by
  unfold Incomplete
  exact inferInstance

theorem length_recvFrame (m : TuyaMessage) :
    (recvFrame m).length = 28 + m.payload.length := by
  simp [recvFrame, be32]
  omega

theorem recvFrame_assoc (m : TuyaMessage) (rest : Bytes) :
    recvFrame m ++ rest =
      be32 PREFIX_VALUE ++ (be32 m.seqno ++ (be32 m.cmd ++
        (be32 (m.payload.length + 12) ++ (be32 m.retcode ++ (m.payload ++
          (be32 m.crc ++ (be32 SUFFIX_VALUE ++ rest))))))) := by
  simp only [recvFrame, List.append_assoc]

/-- `_dispatch` on an unmatched push or heartbeat frame: succeeds and
leaves the listener registry untouched. -/
theorem dispatch_ok_push (d : Dispatcher) (m : TuyaMessage)
    (hls : lookupSlot d.listeners m.seqno = none) (hc : m.cmd = 8 ∨ m.cmd = 9) :
    dispatchMsg d m =
      ({ d with last_seqno := max d.last_seqno (m.seqno : Int)
                dispatched := d.dispatched ++ [m]
                statusCalls :=
                  if m.cmd = 8 then d.statusCalls ++ [m] else d.statusCalls },
        none) := by
  rw [dispatchMsg, hls]
  rcases hc with hc | hc <;> rw [hc] <;> norm_num

/-- `_dispatch` on a frame whose sequence number has a registered waiter:
stores the message in the slot, releases the semaphore, raises nothing. -/
theorem dispatch_ok_matched (d : Dispatcher) (m : TuyaMessage)
    (hls : lookupSlot d.listeners m.seqno = some Slot.waiting) :
    dispatchMsg d m =
      ({ d with last_seqno := max d.last_seqno (m.seqno : Int)
                dispatched := d.dispatched ++ [m]
                listeners := setSlot d.listeners m.seqno (Slot.done (some m))
                released := d.released ++ [m.seqno] }, none) := by
  rw [dispatchMsg, hls]

theorem lookupSlot_setSlot_ne (l : List (Nat × Slot)) (k q : Nat) (v : Slot)
    (h : q ≠ k) :
    lookupSlot (setSlot l k v) q = lookupSlot l q := by
  induction l with
  | nil => rfl
  | cons p rest ih =>
      obtain ⟨k', s⟩ := p
      rw [setSlot]
      by_cases hk : k' = k
      · subst hk
        rw [if_pos rfl, lookupSlot, lookupSlot, if_neg (fun hh => h hh.symm),
          if_neg (fun hh => h hh.symm)]
      · rw [if_neg hk, lookupSlot, lookupSlot]
        by_cases hq : k' = q
        · rw [if_pos hq, if_pos hq]
        · rw [if_neg hq, if_neg hq, ih]

theorem lookupSlot_setSlot_self (l : List (Nat × Slot)) (k : Nat) (v : Slot)
    (h : (lookupSlot l k).isSome) :
    lookupSlot (setSlot l k v) k = some v := by
  induction l with
  | nil => simp [lookupSlot] at h
  | cons p rest ih =>
      obtain ⟨k', s⟩ := p
      rw [setSlot]
      by_cases hk : k' = k
      · rw [if_pos hk, lookupSlot, if_pos hk]
      · rw [if_neg hk, lookupSlot, if_neg hk]
        rw [lookupSlot, if_neg hk] at h
        exact ih h

/-- `_dispatch` never reads or writes the byte buffer. -/
theorem dispatchMsg_buffer_congr (d : Dispatcher) (x : Bytes) (m : TuyaMessage) :
    dispatchMsg { d with buffer := x } m =
      ({ (dispatchMsg d m).1 with buffer := x }, (dispatchMsg d m).2) := by
  rw [dispatchMsg, dispatchMsg]
  rcases lookupSlot d.listeners m.seqno with _ | s
  · dsimp only
    split
    · rfl
    · split
      · rfl
      · split <;> rfl
  · cases s <;> rfl

theorem runLoop_stop (d : Dispatcher) (h : Incomplete d.buffer) :
    runLoop d = (d, none) := by
  rw [runLoop]
  by_cases h20 : d.buffer.length < 20
  · rw [dif_pos h20]
  · rw [dif_neg h20]
    rcases h with h | h
    · exact absurd h h20
    · rw [dif_pos h]

/-- One iteration of the `add_data` loop on a buffer starting with a
complete well-formed frame: the reconstructed message is `m` itself, the
buffer advances exactly past the frame, and the loop continues according
to the dispatch outcome. -/
theorem runLoop_step (d : Dispatcher) (m : TuyaMessage) (rest : Bytes)
    (hbuf : d.buffer = recvFrame m ++ rest) (hwf : Wellformed m) :
    runLoop d =
      (if (dispatchMsg { d with buffer := rest } m).2.isSome then
        dispatchMsg { d with buffer := rest } m
      else runLoop (dispatchMsg { d with buffer := rest } m).1) := by
  obtain ⟨hw1, hw2, hw3, hw4, hw5⟩ := hwf
  have hN := recvFrame_assoc m rest
  have hlen : d.buffer.length = 28 + m.payload.length + rest.length := by
    rw [hbuf, List.length_append, length_recvFrame]
  have h12 : word32 (d.buffer.drop 12) = m.payload.length + 12 := by
    rw [hbuf, hN]
    show word32 (be32 (m.payload.length + 12) ++ _) = _
    exact word32_be32_append _ _ hw5
  have h4 : word32 (d.buffer.drop 4) = m.seqno := by
    rw [hbuf, hN]
    show word32 (be32 m.seqno ++ _) = _
    exact word32_be32_append _ _ hw1
  have h8 : word32 (d.buffer.drop 8) = m.cmd := by
    rw [hbuf, hN]
    show word32 (be32 m.cmd ++ _) = _
    exact word32_be32_append _ _ hw2
  have h16 : word32 (d.buffer.drop 16) = m.retcode := by
    rw [hbuf, hN]
    show word32 (be32 m.retcode ++ _) = _
    exact word32_be32_append _ _ hw3
  have hdrop20 : d.buffer.drop 20 =
      m.payload ++ (be32 m.crc ++ (be32 SUFFIX_VALUE ++ rest)) := by
    rw [hbuf, hN]; rfl
  have hpay : (d.buffer.drop 20).take m.payload.length = m.payload := by
    rw [hdrop20]; exact List.take_left' rfl
  have hdropcrc : d.buffer.drop (20 + m.payload.length) =
      be32 m.crc ++ (be32 SUFFIX_VALUE ++ rest) := by
    rw [← List.drop_drop, hdrop20, List.drop_append_of_le_length le_rfl,
      List.drop_length, List.nil_append]
  have hcrc : word32 (d.buffer.drop (8 + (m.payload.length + 12))) = m.crc := by
    rw [show 8 + (m.payload.length + 12) = 20 + m.payload.length by omega, hdropcrc]
    exact word32_be32_append _ _ hw4
  have hadv : d.buffer.drop (16 + (m.payload.length + 12)) = rest := by
    rw [show 16 + (m.payload.length + 12) = 20 + m.payload.length + 8 by omega,
      ← List.drop_drop, hdropcrc]
    rfl
  rw [runLoop]
  rw [dif_neg (by omega)]
  simp only [h12]
  rw [dif_neg (by omega)]
  simp only [h4, h8, h16, Nat.add_sub_cancel, hpay, hcrc, hadv]

/-- A frame `_dispatch` handles without raising, in the registry state
`ls`: either its sequence number has a still-blocked waiter, or it is
unmatched and a heartbeat (0x09) or status push (0x08).  Any other
unmatched command hits the `msg.command` AttributeError (C5). -/
def Dispatchable (ls : List (Nat × Slot)) (m : TuyaMessage) : Prop :=
  lookupSlot ls m.seqno = some Slot.waiting ∨
    (lookupSlot ls m.seqno = none ∧ (m.cmd = 8 ∨ m.cmd = 9))

instance (ls : List (Nat × Slot)) (m : TuyaMessage) :
    Decidable (Dispatchable ls m) := by
  unfold Dispatchable
  exact inferInstance

/-- Draining a buffer holding N complete well-formed frames followed by
an incomplete tail: every frame is dispatched, in stream order, and the
tail is retained — provided each frame is dispatchable (waiter-matched,
or an unmatched push/heartbeat) and no later frame reuses a
waiter-matched frame's sequence number (its slot is consumed by the
first delivery). -/
theorem runLoop_frames (ms : List TuyaMessage) : ∀ (d : Dispatcher) (tail : Bytes),
    d.buffer = (ms.map recvFrame).flatten ++ tail →
    (∀ m ∈ ms, Wellformed m) →
    (∀ m ∈ ms, Dispatchable d.listeners m) →
    ms.Pairwise (fun a b =>
      lookupSlot d.listeners a.seqno = some Slot.waiting → a.seqno ≠ b.seqno) →
    Incomplete tail →
    (runLoop d).2 = none ∧ (runLoop d).1.buffer = tail ∧
      (runLoop d).1.dispatched = d.dispatched ++ ms := by
  induction ms with
  | nil =>
      intro d tail hbuf hwf hls hpair htail
      have hbt : d.buffer = tail := by simpa using hbuf
      rw [runLoop_stop d (hbt ▸ htail)]
      exact ⟨rfl, hbt, by simp⟩
  | cons m ms ih =>
      intro d tail hbuf hwf hls hpair htail
      have hbuf' : d.buffer = recvFrame m ++ ((ms.map recvFrame).flatten ++ tail) := by
        simpa [List.append_assoc] using hbuf
      have hstep := runLoop_step d m _ hbuf' (hwf m (by simp))
      have hpairC := List.pairwise_cons.mp hpair
      rcases hls m (by simp) with hmatch | ⟨hnone, hcm⟩
      · -- waiter-matched frame: the slot flips to done, later frames
        -- cannot reuse the sequence number (pairwise hypothesis)
        have hdisp := dispatch_ok_matched
          { d with buffer := (ms.map recvFrame).flatten ++ tail } m
          (by simpa using hmatch)
        rw [hstep, hdisp]
        simp only [Option.isSome_none, Bool.false_eq_true, if_false]
        obtain ⟨e1, e2, e3⟩ := ih
          { d with buffer := (ms.map recvFrame).flatten ++ tail
                   listeners := setSlot d.listeners m.seqno (Slot.done (some m))
                   last_seqno := max d.last_seqno (m.seqno : Int)
                   dispatched := d.dispatched ++ [m]
                   released := d.released ++ [m.seqno] }
          tail rfl (fun x hx => hwf x (by simp [hx]))
          (fun x hx => by
            rcases hls x (by simp [hx]) with hw | ⟨hn, hc⟩
            · left
              have hne : m.seqno ≠ x.seqno := hpairC.1 x hx hmatch
              show lookupSlot (setSlot d.listeners m.seqno (Slot.done (some m)))
                x.seqno = some Slot.waiting
              rw [lookupSlot_setSlot_ne _ _ _ _ (fun hh => hne hh.symm)]
              exact hw
            · right
              refine ⟨?_, hc⟩
              have hne : x.seqno ≠ m.seqno := by
                intro hh
                rw [hh, hmatch] at hn
                exact Option.noConfusion hn
              show lookupSlot (setSlot d.listeners m.seqno (Slot.done (some m)))
                x.seqno = none
              rw [lookupSlot_setSlot_ne _ _ _ _ hne]
              exact hn)
          (by
            refine hpairC.2.imp ?_
            intro a b hab hwA
            apply hab
            have hneA : a.seqno ≠ m.seqno := by
              intro hh
              rw [hh] at hwA
              rw [lookupSlot_setSlot_self d.listeners m.seqno _
                (by rw [hmatch]; rfl)] at hwA
              exact Slot.noConfusion (Option.some.inj hwA)
            rw [lookupSlot_setSlot_ne _ _ _ _ hneA] at hwA
            exact hwA)
          htail
        refine ⟨e1, e2, ?_⟩
        rw [e3]
        simp
      · -- unmatched push/heartbeat: the registry is untouched
        have hdisp := dispatch_ok_push
          { d with buffer := (ms.map recvFrame).flatten ++ tail } m
          (by simpa using hnone) hcm
        rw [hstep, hdisp]
        simp only [Option.isSome_none, Bool.false_eq_true, if_false]
        obtain ⟨e1, e2, e3⟩ := ih
          { d with buffer := (ms.map recvFrame).flatten ++ tail
                   last_seqno := max d.last_seqno (m.seqno : Int)
                   dispatched := d.dispatched ++ [m]
                   statusCalls :=
                     if m.cmd = 8 then d.statusCalls ++ [m] else d.statusCalls }
          tail rfl (fun x hx => hwf x (by simp [hx]))
          (fun x hx => hls x (by simp [hx]))
          hpairC.2
          htail
        refine ⟨e1, e2, ?_⟩
        rw [e3]
        simp

/-- The message the `add_data` loop slices from the front of buffer `b`
(when `b` holds a complete frame). -/
def parsedMsg (b : Bytes) : TuyaMessage :=
  { seqno := word32 (b.drop 4)
    cmd := word32 (b.drop 8)
    retcode := word32 (b.drop 16)
    payload := (b.drop 20).take (word32 (b.drop 12) - 12)
    crc := word32 (b.drop (8 + word32 (b.drop 12))) }

theorem runLoop_unfold (d : Dispatcher) (h20 : ¬ d.buffer.length < 20)
    (hl : ¬ (d.buffer.length - 16 < word32 (d.buffer.drop 12))) :
    runLoop d =
      (if (dispatchMsg d (parsedMsg d.buffer)).2.isSome then
        ({ (dispatchMsg d (parsedMsg d.buffer)).1 with
            buffer := d.buffer.drop (16 + word32 (d.buffer.drop 12)) },
          (dispatchMsg d (parsedMsg d.buffer)).2)
      else
        runLoop { (dispatchMsg d (parsedMsg d.buffer)).1 with
            buffer := d.buffer.drop (16 + word32 (d.buffer.drop 12)) }) := by
  rw [runLoop, dif_neg h20]
  simp only [dif_neg hl]
  rw [dispatchMsg_buffer_congr]
  rfl

theorem word32_drop_append (b e : Bytes) (k : Nat) (h : k + 4 ≤ b.length) :
    word32 ((b ++ e).drop k) = word32 (b.drop k) := by
  rw [List.drop_append_of_le_length (by omega)]
  exact word32_append _ _ (by rw [List.length_drop]; omega)

theorem parsedMsg_append (b e : Bytes) (h20 : ¬ b.length < 20)
    (hl : ¬ (b.length - 16 < word32 (b.drop 12))) :
    parsedMsg (b ++ e) = parsedMsg b := by
  have hL : word32 ((b ++ e).drop 12) = word32 (b.drop 12) :=
    word32_drop_append b e 12 (by omega)
  rw [parsedMsg, parsedMsg, hL,
    word32_drop_append b e 4 (by omega),
    word32_drop_append b e 8 (by omega),
    word32_drop_append b e 16 (by omega),
    word32_drop_append b e (8 + word32 (b.drop 12)) (by omega),
    List.drop_append_of_le_length (show 20 ≤ b.length by omega),
    List.take_append_of_le_length (by rw [List.length_drop]; omega)]

/-- On a buffer starting with a complete frame, appending more transport
data does not change the frame sliced out nor the dispatch outcome — only
the retained remainder carries the appended data. -/
theorem runLoop_ext_unfold (d : Dispatcher) (extra : Bytes)
    (h20 : ¬ d.buffer.length < 20)
    (hl : ¬ (d.buffer.length - 16 < word32 (d.buffer.drop 12))) :
    runLoop { d with buffer := d.buffer ++ extra } =
      (if (dispatchMsg d (parsedMsg d.buffer)).2.isSome then
        ({ (dispatchMsg d (parsedMsg d.buffer)).1 with
            buffer := d.buffer.drop (16 + word32 (d.buffer.drop 12)) ++ extra },
          (dispatchMsg d (parsedMsg d.buffer)).2)
      else
        runLoop { (dispatchMsg d (parsedMsg d.buffer)).1 with
            buffer := d.buffer.drop (16 + word32 (d.buffer.drop 12)) ++ extra }) := by
  have hL : word32 (((d.buffer ++ extra)).drop 12) = word32 (d.buffer.drop 12) :=
    word32_drop_append _ _ 12 (by omega)
  have h20' : ¬ ({ d with buffer := d.buffer ++ extra } : Dispatcher).buffer.length
      < 20 := by
    simp only [List.length_append]
    omega
  have hl' : ¬ (({ d with buffer := d.buffer ++ extra } : Dispatcher).buffer.length
      - 16 < word32 (({ d with buffer := d.buffer ++ extra } : Dispatcher).buffer.drop
        12)) := by
    simp only [List.length_append, hL]
    omega
  rw [runLoop_unfold _ h20' hl']
  dsimp only
  rw [hL, parsedMsg_append _ _ h20 hl,
    List.drop_append_of_le_length (show 16 + word32 (d.buffer.drop 12) ≤
      d.buffer.length by omega),
    dispatchMsg_buffer_congr]

theorem runLoop_extend (n : Nat) : ∀ (d : Dispatcher), d.buffer.length ≤ n →
    ∀ (extra : Bytes), (runLoop d).2 = none →
    runLoop { (runLoop d).1 with buffer := (runLoop d).1.buffer ++ extra } =
      runLoop { d with buffer := d.buffer ++ extra } := by
  induction n using Nat.strong_induction_on with
  | _ n ih =>
    intro d hn extra hok
    by_cases h20 : d.buffer.length < 20
    · rw [runLoop_stop d (Or.inl h20)]
    · by_cases hl : d.buffer.length - 16 < word32 (d.buffer.drop 12)
      · rw [runLoop_stop d (Or.inr hl)]
      · have hu := runLoop_unfold d h20 hl
        have hx := runLoop_ext_unfold d extra h20 hl
        rcases hr : (dispatchMsg d (parsedMsg d.buffer)).2 with _ | e
        · rw [hu] at hok ⊢
          rw [hx]
          simp only [hr, Option.isSome_none, Bool.false_eq_true, if_false] at hok ⊢
          have hlt : d.buffer.length - (16 + word32 (d.buffer.drop 12)) < n := by
            omega
          have hstep := ih (d.buffer.length - (16 + word32 (d.buffer.drop 12))) hlt
            { (dispatchMsg d (parsedMsg d.buffer)).1 with
                buffer := d.buffer.drop (16 + word32 (d.buffer.drop 12)) }
            (by simp [List.length_drop]) extra hok
          exact hstep
        · rw [hu] at hok
          simp [hr] at hok

theorem runLoop_prefix_ok (n : Nat) : ∀ (d : Dispatcher), d.buffer.length ≤ n →
    ∀ (extra : Bytes),
    (runLoop { d with buffer := d.buffer ++ extra }).2 = none →
    (runLoop d).2 = none := by
  induction n using Nat.strong_induction_on with
  | _ n ih =>
    intro d hn extra hok
    by_cases h20 : d.buffer.length < 20
    · rw [runLoop_stop d (Or.inl h20)]
    · by_cases hl : d.buffer.length - 16 < word32 (d.buffer.drop 12)
      · rw [runLoop_stop d (Or.inr hl)]
      · have hu := runLoop_unfold d h20 hl
        have hx := runLoop_ext_unfold d extra h20 hl
        rw [hx] at hok
        rcases hr : (dispatchMsg d (parsedMsg d.buffer)).2 with _ | e
        · simp only [hr, Option.isSome_none, Bool.false_eq_true, if_false] at hok
          have hlt : d.buffer.length - (16 + word32 (d.buffer.drop 12)) < n := by
            omega
          have := ih (d.buffer.length - (16 + word32 (d.buffer.drop 12))) hlt
            { (dispatchMsg d (parsedMsg d.buffer)).1 with
                buffer := d.buffer.drop (16 + word32 (d.buffer.drop 12)) }
            (by simp [List.length_drop]) extra hok
          rw [hu]
          simp only [hr, Option.isSome_none, Bool.false_eq_true, if_false]
          exact this
        · simp [hr] at hok

theorem runLoop_result_incomplete (n : Nat) : ∀ (d : Dispatcher),
    d.buffer.length ≤ n → (runLoop d).2 = none →
    Incomplete ((runLoop d).1.buffer) := by
  induction n using Nat.strong_induction_on with
  | _ n ih =>
    intro d hn hok
    by_cases h20 : d.buffer.length < 20
    · rw [runLoop_stop d (Or.inl h20)]
      exact Or.inl h20
    · by_cases hl : d.buffer.length - 16 < word32 (d.buffer.drop 12)
      · rw [runLoop_stop d (Or.inr hl)]
        exact Or.inr hl
      · have hu := runLoop_unfold d h20 hl
        rcases hr : (dispatchMsg d (parsedMsg d.buffer)).2 with _ | e
        · rw [hu] at hok ⊢
          simp only [hr, Option.isSome_none, Bool.false_eq_true, if_false] at hok ⊢
          have hlt : d.buffer.length - (16 + word32 (d.buffer.drop 12)) < n := by
            omega
          exact ih (d.buffer.length - (16 + word32 (d.buffer.drop 12))) hlt
            { (dispatchMsg d (parsedMsg d.buffer)).1 with
                buffer := d.buffer.drop (16 + word32 (d.buffer.drop 12)) }
            (by simp [List.length_drop]) hok
        · rw [hu] at hok
          simp [hr] at hok

theorem add_data_split (d : Dispatcher) (a b : Bytes)
    (h : (add_data d a).2 = none) :
    add_data (add_data d a).1 b = add_data d (a ++ b) := by
  rw [add_data, add_data, add_data]
  have := runLoop_extend ({ d with buffer := d.buffer ++ a } : Dispatcher).buffer.length
    { d with buffer := d.buffer ++ a } le_rfl b h
  rw [this, List.append_assoc]

theorem feedAll_join (cs : List Bytes) : ∀ (d : Dispatcher),
    Incomplete d.buffer → (add_data d cs.flatten).2 = none →
    feedAll d cs = add_data d cs.flatten := by
  induction cs with
  | nil =>
      intro d hinc _
      rw [feedAll, add_data]
      rw [List.flatten_nil, List.append_nil]
      exact (runLoop_stop d hinc).symm
  | cons c cs ih =>
      intro d hinc hok
      have hok1 : (add_data d c).2 = none := by
        apply runLoop_prefix_ok
          ({ d with buffer := d.buffer ++ c } : Dispatcher).buffer.length
          { d with buffer := d.buffer ++ c } le_rfl cs.flatten
        have : ({ d with buffer := d.buffer ++ c } : Dispatcher).buffer ++ cs.flatten
            = d.buffer ++ (c :: cs).flatten := by
          simp [List.append_assoc]
        rw [this]
        exact hok
      have hsplit := add_data_split d c cs.flatten hok1
      have hinc1 : Incomplete ((add_data d c).1.buffer) :=
        runLoop_result_incomplete
          ({ d with buffer := d.buffer ++ c } : Dispatcher).buffer.length
          { d with buffer := d.buffer ++ c } le_rfl hok1
      have hok2 : (add_data (add_data d c).1 cs.flatten).2 = none := by
        rw [hsplit]
        have : c ++ cs.flatten = (c :: cs).flatten := by simp
        rw [this]
        exact hok
      show (if (add_data d c).2.isSome then add_data d c
        else feedAll (add_data d c).1 cs) = add_data d (c :: cs).flatten
      rw [hok1]
      simp only [Option.isSome_none, Bool.false_eq_true, if_false]
      rw [ih (add_data d c).1 hinc1 hok2, hsplit]
      have hflat : c ++ cs.flatten = (c :: cs).flatten := by simp
      rw [hflat]

/-- C8: the claim — for *every* stream of N valid frames, any chunking
dispatches exactly N frames — is false on the code.  A single chunk
(M = 1) holding two well-formed frames, the first an unmatched frame
with command 0x0A, dispatches only 1 of the 2: `_dispatch` raises
`AttributeError` on the first frame (the `msg.command` typo of C5), the
exception aborts the `add_data` loop, and the second frame — although
already buffered — is never dispatched by this feed. -/
theorem C8_counterexample :
    (feedAll Dispatcher.init
        [recvFrame ⟨1, 10, 0, [], 0⟩ ++ recvFrame ⟨2, 8, 0, [], 5⟩]).1.dispatched ≠
      [⟨1, 10, 0, [], 0⟩, ⟨2, 8, 0, [], 5⟩] ∧
    (feedAll Dispatcher.init
        [recvFrame ⟨1, 10, 0, [], 0⟩ ++ recvFrame ⟨2, 8, 0, [], 5⟩]).1.dispatched =
      [⟨1, 10, 0, [], 0⟩] ∧
    (feedAll Dispatcher.init
        [recvFrame ⟨1, 10, 0, [], 0⟩ ++ recvFrame ⟨2, 8, 0, [], 5⟩]).2 =
      some "AttributeError: TuyaMessage object has no attribute command" := by
  have hadd : add_data Dispatcher.init
      (recvFrame ⟨1, 10, 0, [], 0⟩ ++ recvFrame ⟨2, 8, 0, [], 5⟩) =
      ({ buffer := recvFrame ⟨2, 8, 0, [], 5⟩, listeners := [], last_seqno := 1,
          dispatched := [⟨1, 10, 0, [], 0⟩], statusCalls := [], released := [] },
        some "AttributeError: TuyaMessage object has no attribute command") := by
    show runLoop { Dispatcher.init with buffer := Dispatcher.init.buffer ++
      (recvFrame ⟨1, 10, 0, [], 0⟩ ++ recvFrame ⟨2, 8, 0, [], 5⟩) } = _
    rw [runLoop_step _ ⟨1, 10, 0, [], 0⟩ (recvFrame ⟨2, 8, 0, [], 5⟩) rfl (by decide)]
    decide
  have hfeed : feedAll Dispatcher.init
      [recvFrame ⟨1, 10, 0, [], 0⟩ ++ recvFrame ⟨2, 8, 0, [], 5⟩] =
      ({ buffer := recvFrame ⟨2, 8, 0, [], 5⟩, listeners := [], last_seqno := 1,
          dispatched := [⟨1, 10, 0, [], 0⟩], statusCalls := [], released := [] },
        some "AttributeError: TuyaMessage object has no attribute command") := by
    show (if (add_data Dispatcher.init
          (recvFrame ⟨1, 10, 0, [], 0⟩ ++ recvFrame ⟨2, 8, 0, [], 5⟩)).2.isSome then
        add_data Dispatcher.init
          (recvFrame ⟨1, 10, 0, [], 0⟩ ++ recvFrame ⟨2, 8, 0, [], 5⟩)
      else
        feedAll (add_data Dispatcher.init
          (recvFrame ⟨1, 10, 0, [], 0⟩ ++ recvFrame ⟨2, 8, 0, [], 5⟩)).1 []) = _
    rw [hadd]
    rfl
  refine ⟨?_, ?_, ?_⟩ <;>
    · rw [hfeed]
      try decide

/-- C8 (amended): demultiplexer reassembly is chunking-invariant for
every stream of well-formed frames the dispatch routine handles without
raising.  Feeding the concatenated bytes of N well-formed frames — each
either matched by a registered waiter or an unmatched push/heartbeat
(0x08/0x09), with no later frame reusing a waiter-matched frame's
sequence number — plus an incomplete trailing prefix, split across M
arbitrary chunks at arbitrary byte offsets, dispatches exactly the N
frames in stream order, regardless of where the chunk boundaries fall,
and retains exactly the incomplete prefix in the buffer.  (For a stream
containing an unmatched frame with any other command, `_dispatch` raises
and later frames of the same feed go undispatched — the counterexample.) -/
theorem C8_chunked_reassembly (ms : List TuyaMessage) (cs : List Bytes)
    (tail : Bytes) (d0 : Dispatcher)
    (hjoin : cs.flatten = (ms.map recvFrame).flatten ++ tail)
    (htail : Incomplete tail)
    (hbuf0 : d0.buffer = [])
    (hwf : ∀ m ∈ ms, Wellformed m)
    (hdisp : ∀ m ∈ ms, Dispatchable d0.listeners m)
    (hpair : ms.Pairwise (fun a b =>
      lookupSlot d0.listeners a.seqno = some Slot.waiting → a.seqno ≠ b.seqno)) :
    (feedAll d0 cs).2 = none ∧
    (feedAll d0 cs).1.dispatched = d0.dispatched ++ ms ∧
    (feedAll d0 cs).1.buffer = tail := by
  have hbuf : ({ d0 with buffer := d0.buffer ++ cs.flatten } : Dispatcher).buffer
      = (ms.map recvFrame).flatten ++ tail := by
    show d0.buffer ++ cs.flatten = _
    rw [hbuf0, List.nil_append, hjoin]
  obtain ⟨e1, e2, e3⟩ := runLoop_frames ms
    { d0 with buffer := d0.buffer ++ cs.flatten } tail hbuf hwf
    (fun m hm => hdisp m hm) hpair htail
  have hfeed := feedAll_join cs d0
    (by rw [hbuf0]; exact Or.inl (by simp)) e1
  rw [hfeed]
  exact ⟨e1, e3, e2⟩

/-- Witness for C8 (amended): a waiter-matched response frame (sequence
number 100, command 0x07) followed by an unsolicited push frame, plus a
3-byte incomplete prefix, fed in three chunks whose boundaries fall
inside the frames. -/
theorem C8_chunked_reassembly_witness :
    (feedAll { Dispatcher.init with listeners := [(100, Slot.waiting)] }
        [(recvFrame ⟨100, 7, 0, [1, 2], 0⟩ ++ recvFrame ⟨101, 8, 0, [], 5⟩ ++
            [0, 1, 2]).take 7,
          ((recvFrame ⟨100, 7, 0, [1, 2], 0⟩ ++ recvFrame ⟨101, 8, 0, [], 5⟩ ++
            [0, 1, 2]).drop 7).take 40,
          (recvFrame ⟨100, 7, 0, [1, 2], 0⟩ ++ recvFrame ⟨101, 8, 0, [], 5⟩ ++
            [0, 1, 2]).drop 47]).2 = none ∧
    (feedAll { Dispatcher.init with listeners := [(100, Slot.waiting)] }
        [(recvFrame ⟨100, 7, 0, [1, 2], 0⟩ ++ recvFrame ⟨101, 8, 0, [], 5⟩ ++
            [0, 1, 2]).take 7,
          ((recvFrame ⟨100, 7, 0, [1, 2], 0⟩ ++ recvFrame ⟨101, 8, 0, [], 5⟩ ++
            [0, 1, 2]).drop 7).take 40,
          (recvFrame ⟨100, 7, 0, [1, 2], 0⟩ ++ recvFrame ⟨101, 8, 0, [], 5⟩ ++
            [0, 1, 2]).drop 47]).1.dispatched =
      ({ Dispatcher.init with
        listeners := [(100, Slot.waiting)] } : Dispatcher).dispatched ++
        [⟨100, 7, 0, [1, 2], 0⟩, ⟨101, 8, 0, [], 5⟩] ∧
    (feedAll { Dispatcher.init with listeners := [(100, Slot.waiting)] }
        [(recvFrame ⟨100, 7, 0, [1, 2], 0⟩ ++ recvFrame ⟨101, 8, 0, [], 5⟩ ++
            [0, 1, 2]).take 7,
          ((recvFrame ⟨100, 7, 0, [1, 2], 0⟩ ++ recvFrame ⟨101, 8, 0, [], 5⟩ ++
            [0, 1, 2]).drop 7).take 40,
          (recvFrame ⟨100, 7, 0, [1, 2], 0⟩ ++ recvFrame ⟨101, 8, 0, [], 5⟩ ++
            [0, 1, 2]).drop 47]).1.buffer = [0, 1, 2] :=
  C8_chunked_reassembly [⟨100, 7, 0, [1, 2], 0⟩, ⟨101, 8, 0, [], 5⟩] _ [0, 1, 2]
    { Dispatcher.init with listeners := [(100, Slot.waiting)] }
    (by decide) (by decide) rfl (by decide) (by decide) (by decide)

/-! ### TuyaProtocol (Session) -/

/-- The module constants `SET`/`STATUS`/`HEARTBEAT` selecting a command
template. -/
inductive Cmd where
  | set | status | heartbeat
  deriving DecidableEq, Repr

/-- Device type: `"type_0a"` / `"type_0d"`. -/
inductive DevType where
  | type_0a | type_0d
  deriving DecidableEq, Repr

/-- `self.version == 3.3` is the only version comparison made; 3.1 and
3.3 are the supported values. -/
inductive Ver where
  | v31 | v33
  deriving DecidableEq, Repr

/-- The JSON keys occurring in `PAYLOAD_DICT` command templates. -/
inductive JKey where
  | gwId | devId | uid | t | dps
  deriving DecidableEq, Repr

/-- A JSON value stored in a command template: a string (device id or
timestamp, given by its bytes), or an opaque already-serialized JSON
value (the `dps` data dict passed to `_generate_payload`, or the
session's `dps_to_request` dict). -/
inductive JVal where
  | str : Bytes → JVal
  | raw : Bytes → JVal
  deriving DecidableEq, Repr

def keyBytes : JKey → Bytes
  | JKey.gwId => [103, 119, 73, 100]
  | JKey.devId => [100, 101, 118, 73, 100]
  | JKey.uid => [117, 105, 100]
  | JKey.t => [116]
  | JKey.dps => [100, 112, 115]

/-- One entry of `PAYLOAD_DICT`: the command byte (`"hexByte"`) and the
JSON template dict (`"command"`), as an insertion-ordered association
list (Python dicts preserve insertion order). -/
structure CmdTemplate where
  hexByte : Nat
  command : List (JKey × JVal)
  deriving DecidableEq, Repr

/-- The module-level mutable `PAYLOAD_DICT`, passed around explicitly as
global state. -/
def GDict := DevType → Cmd → CmdTemplate

/-- `PAYLOAD_DICT` as written at module import time. -/
def initialPayloadDict : GDict := fun dt c =>
  match dt, c with
  | DevType.type_0a, Cmd.status =>
      ⟨0x0A, [(JKey.gwId, JVal.str []), (JKey.devId, JVal.str [])]⟩
  | DevType.type_0a, Cmd.set =>
      ⟨0x07, [(JKey.devId, JVal.str []), (JKey.uid, JVal.str []),
        (JKey.t, JVal.str [])]⟩
  | DevType.type_0a, Cmd.heartbeat => ⟨0x09, []⟩
  | DevType.type_0d, Cmd.status =>
      ⟨0x0D, [(JKey.devId, JVal.str []), (JKey.uid, JVal.str []),
        (JKey.t, JVal.str [])]⟩
  | DevType.type_0d, Cmd.set =>
      ⟨0x07, [(JKey.devId, JVal.str []), (JKey.uid, JVal.str []),
        (JKey.t, JVal.str [])]⟩
  | DevType.type_0d, Cmd.heartbeat => ⟨0x09, []⟩

def hasKey (kvs : List (JKey × JVal)) (k : JKey) : Bool :=
  kvs.any (fun p => p.1 == k)

/-- Python dict write `d[k] = v`: update in place when the key exists
(position preserved), append otherwise. -/
def setKey (kvs : List (JKey × JVal)) (k : JKey) (v : JVal) : List (JKey × JVal) :=
  if hasKey kvs k then kvs.map (fun p => if p.1 == k then (k, v) else p)
  else kvs ++ [(k, v)]

/-- Dict read `d.get(k)`. -/
def lookupJ : List (JKey × JVal) → JKey → Option JVal
  | [], _ => none
  | (k', v) :: rest, k => if k' = k then some v else lookupJ rest k

def dumpVal : JVal → Bytes
  | JVal.str s => [34] ++ s ++ [34]
  | JVal.raw b => b

/-- `json.dumps(json_data).replace(" ", "").encode("utf-8")`: the
serialized object with no whitespace (the string values used — device
ids and integer timestamps — need no JSON escaping). -/
def jsonDump (kvs : List (JKey × JVal)) : Bytes :=
  [123] ++ (List.intercalate [44]
    (kvs.map fun p => [34] ++ keyBytes p.1 ++ [34, 58] ++ dumpVal p.2)) ++ [125]

def PROTOCOL_VERSION_BYTES_31 : Bytes := [51, 46, 49]
def PROTOCOL_VERSION_BYTES_33 : Bytes := [51, 46, 51]
def PROTOCOL_33_HEADER : Bytes := PROTOCOL_VERSION_BYTES_33 ++ List.replicate 12 0

/-- The decrypted-text sentinel `"data unvalid"`. -/
def SENTINEL : Bytes := [100, 97, 116, 97, 32, 117, 110, 118, 97, 108, 105, 100]

/-- Python substring containment `needle in haystack`. -/
def isInfixB (needle : Bytes) : Bytes → Bool
  | [] => needle == []
  | l@(_ :: rest) => needle.isPrefixOf l || isInfixB needle rest

/-- The `TuyaProtocol` state read or written by payload generation,
decoding and `exchange`. -/
structure Session where
  id : Bytes
  local_key : Bytes
  version : Ver
  dev_type : DevType
  dps_to_request : JVal
  seqno : Nat
  deriving Repr

/-- The external cipher/hash primitives (AES-ECB from the `cryptography`
library and `hashlib.md5`), abstracted as byte functions; `md5hex` is the
ASCII hex digest. -/
structure Prims where
  E : Bytes → Bytes
  D : Bytes → Bytes
  md5hex : Bytes → Bytes

/-- Identity primitives, for concrete witnesses (the claims proved with
`Prims` hypotheses hold for any inverse pair, AES included). -/
def idPrims : Prims := ⟨fun x => x, fun x => x, fun _ => List.replicate 32 48⟩

/-- Result of `_generate_payload`: the packed frame, the JSON object that
was serialized into it (kept for stating C10), the mutated module-level
`PAYLOAD_DICT`, and the session with its sequence number advanced. -/
structure GenOut where
  frame : Bytes
  json : List (JKey × JVal)
  gdict : GDict
  session : Session

/-- `TuyaProtocol._generate_payload(command, data)`.  `json_data` is an
alias of the template dict inside the module-level `PAYLOAD_DICT`, so
every key written below mutates the shared template — reflected in the
returned `gdict`.  `now` is the `str(int(time.time()))` timestamp bytes.
(The `0x0D` branch stores the current value of `dps_to_request`; the
source stores a reference to the session's dict, an aliasing that no
claim exercises further.) -/
def generate_payload (P : Prims) (g : GDict) (s : Session) (command : Cmd)
    (data : Option JVal) (now : Bytes) : GenOut :=
  let cmd_data := g s.dev_type command
  let command_hb := cmd_data.hexByte
  let j0 := cmd_data.command
  let j1 := if hasKey j0 JKey.gwId then setKey j0 JKey.gwId (JVal.str s.id) else j0
  let j2 := if hasKey j1 JKey.devId then setKey j1 JKey.devId (JVal.str s.id) else j1
  let j3 := if hasKey j2 JKey.uid then setKey j2 JKey.uid (JVal.str s.id) else j2
  let j4 := if hasKey j3 JKey.t then setKey j3 JKey.t (JVal.str now) else j3
  let j5 := match data with
    | some dv => setKey j4 JKey.dps dv
    | none => j4
  let j6 := if command_hb = 0x0D then setKey j5 JKey.dps s.dps_to_request else j5
  let g' : GDict := fun dt c =>
    if dt = s.dev_type ∧ c = command then ⟨command_hb, j6⟩ else g dt c
  let payload0 := jsonDump j6
  let payload :=
    if s.version = Ver.v33 then
      let enc := cipher_encrypt P.E payload0 false
      if command_hb ≠ 0x0A then PROTOCOL_33_HEADER ++ enc else enc
    else if command = Cmd.set then
      let enc := cipher_encrypt P.E payload0 true
      let preMd5 := [100, 97, 116, 97, 61] ++ enc ++
        [124, 124, 108, 112, 118, 61] ++ PROTOCOL_VERSION_BYTES_31 ++
        [124, 124] ++ s.local_key
      PROTOCOL_VERSION_BYTES_31 ++ ((P.md5hex preMd5).drop 8).take 16 ++ enc
    else payload0
  { frame := pack_message ⟨s.seqno, command_hb, 0, payload, 0⟩
    json := j6
    gdict := g'
    session := { s with seqno := s.seqno + 1 } }

/-- `TuyaProtocol._decode_payload(payload)`: returns the session (with
any `dev_type` flip applied) and either `ok (some text)` — the decoded
JSON document, modelled by the serialized text handed to `json.loads` —
`ok none` for the `"data unvalid"` sentinel path, or `error` for a raised
exception. -/
def decode_payload (P : Prims) (s : Session) (payload : Bytes) :
    Session × Except String (Option Bytes) :=
  if payload = [] then (s, Except.ok (some [123, 125]))
  else if PROTOCOL_VERSION_BYTES_31.isPrefixOf payload then
    match cipher_decrypt P.D ((payload.drop 3).drop 16) true with
    | none => (s, Except.error "UnicodeDecodeError or binascii.Error")
    | some text => (s, Except.ok (some text))
  else if s.version = Ver.v33 then
    let p1 := if s.dev_type ≠ DevType.type_0a ∨
        PROTOCOL_VERSION_BYTES_33.isPrefixOf payload then payload.drop 15
      else payload
    match cipher_decrypt P.D p1 false with
    | none => (s, Except.error "UnicodeDecodeError")
    | some text =>
      if isInfixB SENTINEL text then
        ({ s with dev_type := DevType.type_0d }, Except.ok none)
      else (s, Except.ok (some text))
  else if ¬ ([123] : Bytes).isPrefixOf payload then
    (s, Except.error "Exception: Unexpected payload")
  else (s, Except.ok (some payload))

/-- What a call to `TuyaProtocol.exchange` evaluates to. -/
inductive ExchangeOutcome where
  | ok : Option Bytes → ExchangeOutcome
  /-- The value of the *un-awaited* expression `self.exchange(command,
  dps)` inside the `async def`: a fresh coroutine object that is never
  run. -/
  | coroutine : Cmd → Option JVal → ExchangeOutcome
  | raised : String → ExchangeOutcome
  deriving DecidableEq, Repr

/-- `TuyaProtocol.exchange(command, dps)`, driven by a reply oracle:
`replies` lists, in order, the values `dispatcher.wait_for(self.seqno -
1)` resolves to — `some bytes` for a matched response's payload, `none`
when the wait was aborted; an exhausted oracle models the
`asyncio.TimeoutError` of a response that never arrives.  The frame
written to the transport is appended to the returned list.  The flip
branch faithfully models the source's `return self.exchange(command,
dps)`: the inner coroutine is NOT awaited, so it never executes — no
second frame is sent, no further reply is consumed, and the coroutine
object itself is the returned value. -/
def exchange (P : Prims) (g : GDict) (s : Session) (command : Cmd)
    (dps : Option JVal) (now : Bytes) (replies : List (Option Bytes)) :
    GDict × Session × List Bytes × ExchangeOutcome :=
  let o := generate_payload P g s command dps now
  match replies with
  | [] => (o.gdict, o.session, [o.frame], ExchangeOutcome.raised "asyncio.TimeoutError")
  | r :: _ =>
    match r with
    | none => (o.gdict, o.session, [o.frame], ExchangeOutcome.ok none)
    | some mp =>
      let sd := decode_payload P o.session mp
      match sd.2 with
      | Except.error e => (o.gdict, sd.1, [o.frame], ExchangeOutcome.raised e)
      | Except.ok decoded =>
        if sd.1.dev_type = s.dev_type then
          (o.gdict, sd.1, [o.frame], ExchangeOutcome.ok decoded)
        else (o.gdict, sd.1, [o.frame], ExchangeOutcome.coroutine command dps)

theorem word32_pack_drop8 (m : TuyaMessage) (h : m.cmd < 2 ^ 32) :
    word32 ((pack_message m).drop 8) = m.cmd := by
  obtain ⟨C, hC⟩ : ∃ C, pack_message m =
      be32 PREFIX_VALUE ++ (be32 m.seqno ++ (be32 m.cmd ++
        (be32 (m.payload.length + 8) ++
          (m.payload ++ (be32 C ++ be32 SUFFIX_VALUE))))) :=
    ⟨crc32 (be32 PREFIX_VALUE ++ (be32 m.seqno ++ (be32 m.cmd ++
        (be32 (m.payload.length + 8) ++ m.payload)))),
      by simp only [pack_message, List.append_assoc]⟩
  rw [hC]
  show word32 (be32 m.cmd ++ _) = m.cmd
  exact word32_be32_append _ _ h

/-- The frame `_generate_payload` emits carries the `hexByte` of the
selected `PAYLOAD_DICT` template as its command word. -/
theorem generate_payload_frame (P : Prims) (g : GDict) (s : Session) (c : Cmd)
    (data : Option JVal) (now : Bytes) :
    ∃ payload, (generate_payload P g s c data now).frame =
      pack_message ⟨s.seqno, (g s.dev_type c).hexByte, 0, payload, 0⟩ :=
  ⟨_, rfl⟩

/-- C1: the device-type fallback never happens.  The claim (and the
source's own comment, "Perform a new exchange (once)") says `exchange`
re-issues the same exchange once after a mid-exchange device-type flip
and returns the second response's payload.  But line
`return self.exchange(command, dps)` lacks an `await`: inside the
`async def` it evaluates to a fresh coroutine object that is never run.
At the failing input — a type-A v3.3 session issuing STATUS whose first
reply decrypts to the `"data unvalid"` sentinel, with a perfectly good
second reply available — the session flips to type-D, but only one frame
is ever sent, the second reply is never consumed, and the caller receives
the coroutine object instead of a decoded payload. -/
theorem C1_flip_returns_unawaited_coroutine :
    (exchange idPrims initialPayloadDict
        ⟨[], [], Ver.v33, DevType.type_0a, JVal.raw [123, 125], 0⟩
        Cmd.status none []
        [some (cipher_pad SENTINEL),
          some (List.replicate 15 0 ++ cipher_pad [123, 125])]).2.2.2 =
      ExchangeOutcome.coroutine Cmd.status none ∧
    (exchange idPrims initialPayloadDict
        ⟨[], [], Ver.v33, DevType.type_0a, JVal.raw [123, 125], 0⟩
        Cmd.status none []
        [some (cipher_pad SENTINEL),
          some (List.replicate 15 0 ++ cipher_pad [123, 125])]).2.2.1.length = 1 ∧
    (exchange idPrims initialPayloadDict
        ⟨[], [], Ver.v33, DevType.type_0a, JVal.raw [123, 125], 0⟩
        Cmd.status none []
        [some (cipher_pad SENTINEL),
          some (List.replicate 15 0 ++ cipher_pad [123, 125])]).2.1.dev_type =
      DevType.type_0d := by
  refine ⟨?_, ?_, ?_⟩ <;> decide

/-- C3: the claim says a type-D STATUS frame carries command code 0x07
(the SET code).  It carries 0x0D: `PAYLOAD_DICT["type_0d"]["status"]`
has `hexByte = 0x0D` (the source's own header comment says "type_0d
devices require the 0d command as the status request"), and the packed
frame's command word shows it. -/
theorem C3_counterexample :
    word32 ((generate_payload idPrims initialPayloadDict
        ⟨[], [], Ver.v31, DevType.type_0d, JVal.raw [123, 125], 0⟩
        Cmd.status none []).frame.drop 8) = 0x0D ∧ (0x0D : Nat) ≠ 0x07 := by
  refine ⟨?_, by decide⟩
  decide

/-- C3 (amended): a type-D STATUS frame carries command code 0x0D (not
0x07); a type-A STATUS frame carries 0x0A; SET carries 0x07 and HEARTBEAT
0x09 for both device types; and an unsolicited frame with command 0x08
and no registered waiter is routed to the status listener. -/
theorem C3_command_codes (P : Prims) (s : Session) (now : Bytes)
    (data : Option JVal) (d : Dispatcher) (m : TuyaMessage)
    (hls : lookupSlot d.listeners m.seqno = none) (hm : m.cmd = 8) :
    word32 ((generate_payload P initialPayloadDict
        { s with dev_type := DevType.type_0d } Cmd.status none now).frame.drop 8)
      = 0x0D ∧
    word32 ((generate_payload P initialPayloadDict
        { s with dev_type := DevType.type_0a } Cmd.status none now).frame.drop 8)
      = 0x0A ∧
    word32 ((generate_payload P initialPayloadDict s Cmd.set data now).frame.drop 8)
      = 0x07 ∧
    word32 ((generate_payload P initialPayloadDict s Cmd.heartbeat none
        now).frame.drop 8) = 0x09 ∧
    (dispatchMsg d m).2 = none ∧
    (dispatchMsg d m).1.statusCalls = d.statusCalls ++ [m] := by
  obtain ⟨id, lk, ver, dt, dr, sq⟩ := s
  have hpush := dispatch_ok_push d m hls (Or.inl hm)
  refine ⟨?_, ?_, ?_, ?_, by rw [hpush], by rw [hpush, hm]; simp⟩
  · obtain ⟨pl, hpl⟩ := generate_payload_frame P initialPayloadDict
      { id := id, local_key := lk, version := ver, dev_type := DevType.type_0d,
        dps_to_request := dr, seqno := sq } Cmd.status none now
    rw [hpl, word32_pack_drop8 _ (by show (0x0D : Nat) < 2 ^ 32; decide)]
    rfl
  · obtain ⟨pl, hpl⟩ := generate_payload_frame P initialPayloadDict
      { id := id, local_key := lk, version := ver, dev_type := DevType.type_0a,
        dps_to_request := dr, seqno := sq } Cmd.status none now
    rw [hpl, word32_pack_drop8 _ (by show (0x0A : Nat) < 2 ^ 32; decide)]
    rfl
  · cases dt with
    | type_0a =>
        obtain ⟨pl, hpl⟩ := generate_payload_frame P initialPayloadDict
          { id := id, local_key := lk, version := ver,
            dev_type := DevType.type_0a, dps_to_request := dr, seqno := sq }
          Cmd.set data now
        rw [hpl, word32_pack_drop8 _ (by show (0x07 : Nat) < 2 ^ 32; decide)]
        rfl
    | type_0d =>
        obtain ⟨pl, hpl⟩ := generate_payload_frame P initialPayloadDict
          { id := id, local_key := lk, version := ver,
            dev_type := DevType.type_0d, dps_to_request := dr, seqno := sq }
          Cmd.set data now
        rw [hpl, word32_pack_drop8 _ (by show (0x07 : Nat) < 2 ^ 32; decide)]
        rfl
  · cases dt with
    | type_0a =>
        obtain ⟨pl, hpl⟩ := generate_payload_frame P initialPayloadDict
          { id := id, local_key := lk, version := ver,
            dev_type := DevType.type_0a, dps_to_request := dr, seqno := sq }
          Cmd.heartbeat none now
        rw [hpl, word32_pack_drop8 _ (by show (0x09 : Nat) < 2 ^ 32; decide)]
        rfl
    | type_0d =>
        obtain ⟨pl, hpl⟩ := generate_payload_frame P initialPayloadDict
          { id := id, local_key := lk, version := ver,
            dev_type := DevType.type_0d, dps_to_request := dr, seqno := sq }
          Cmd.heartbeat none now
        rw [hpl, word32_pack_drop8 _ (by show (0x09 : Nat) < 2 ^ 32; decide)]
        rfl

/-- Witness for C3 (amended) at a concrete session, frame and
dispatcher. -/
theorem C3_command_codes_witness :
    word32 ((generate_payload idPrims initialPayloadDict
        { (⟨[], [], Ver.v31, DevType.type_0a, JVal.raw [123, 125], 0⟩ : Session)
          with dev_type := DevType.type_0d } Cmd.status none []).frame.drop 8)
      = 0x0D ∧
    word32 ((generate_payload idPrims initialPayloadDict
        { (⟨[], [], Ver.v31, DevType.type_0a, JVal.raw [123, 125], 0⟩ : Session)
          with dev_type := DevType.type_0a } Cmd.status none []).frame.drop 8)
      = 0x0A ∧
    word32 ((generate_payload idPrims initialPayloadDict
        ⟨[], [], Ver.v31, DevType.type_0a, JVal.raw [123, 125], 0⟩
        Cmd.set none []).frame.drop 8) = 0x07 ∧
    word32 ((generate_payload idPrims initialPayloadDict
        ⟨[], [], Ver.v31, DevType.type_0a, JVal.raw [123, 125], 0⟩
        Cmd.heartbeat none []).frame.drop 8) = 0x09 ∧
    (dispatchMsg Dispatcher.init ⟨3, 8, 0, [], 0⟩).2 = none ∧
    (dispatchMsg Dispatcher.init ⟨3, 8, 0, [], 0⟩).1.statusCalls =
      Dispatcher.init.statusCalls ++ [⟨3, 8, 0, [], 0⟩] :=
  C3_command_codes idPrims ⟨[], [], Ver.v31, DevType.type_0a, JVal.raw [123, 125], 0⟩
    [] none Dispatcher.init ⟨3, 8, 0, [], 0⟩ (by decide) rfl

/-- After `_dispatch` handles a frame with sequence number at least S,
`last_seqno` is at least S. -/
theorem dispatch_last_seqno (d : Dispatcher) (m : TuyaMessage) :
    (dispatchMsg d m).1.last_seqno = max d.last_seqno (m.seqno : Int) := by
  rw [dispatchMsg]
  rcases lookupSlot d.listeners m.seqno with _ | s
  · dsimp only
    split
    · rfl
    · split
      · rfl
      · split <;> rfl
  · cases s <;> rfl

/-- C9: the stale-sequence guard.  After a frame with sequence number at
least S has been dispatched, `last_seqno ≥ S`, so `wait_for(S)` takes the
fast path: it returns the no-result sentinel immediately, registering no
waiter and never awaiting; and an `exchange` whose wait resolves to the
no-result sentinel returns `None` rather than waiting. -/
theorem C9_stale_sequence_guard (d : Dispatcher) (m : TuyaMessage) (S : Nat)
    (hm : S ≤ m.seqno) (P : Prims) (g : GDict) (s : Session) (c : Cmd)
    (dps : Option JVal) (now : Bytes) :
    (S : Int) ≤ (dispatchMsg d m).1.last_seqno ∧
    wait_for_start (dispatchMsg d m).1 S = WaitStart.retNone ∧
    (exchange P g s c dps now [none]).2.2.2 = ExchangeOutcome.ok none := by
  have hlast : (S : Int) ≤ (dispatchMsg d m).1.last_seqno := by
    rw [dispatch_last_seqno]
    exact le_trans (by exact_mod_cast hm) (le_max_right _ _)
  refine ⟨hlast, ?_, rfl⟩
  rw [wait_for_start, if_pos hlast]

/-- Witness for C9 at a concrete dispatcher, frame and session. -/
theorem C9_stale_sequence_guard_witness :
    ((3 : Nat) : Int) ≤ (dispatchMsg Dispatcher.init ⟨7, 9, 0, [], 0⟩).1.last_seqno ∧
    wait_for_start (dispatchMsg Dispatcher.init ⟨7, 9, 0, [], 0⟩).1 3 =
      WaitStart.retNone ∧
    (exchange idPrims initialPayloadDict
        ⟨[], [], Ver.v31, DevType.type_0a, JVal.raw [123, 125], 0⟩
        Cmd.status none [] [none]).2.2.2 = ExchangeOutcome.ok none :=
  C9_stale_sequence_guard Dispatcher.init ⟨7, 9, 0, [], 0⟩ 3 (by decide) idPrims
    initialPayloadDict ⟨[], [], Ver.v31, DevType.type_0a, JVal.raw [123, 125], 0⟩
    Cmd.status none []

/-- The JSON object `_generate_payload` serializes, as a function of the
(possibly already mutated) template it aliases. -/
theorem generate_payload_json (P : Prims) (g : GDict) (s : Session) (c : Cmd)
    (data : Option JVal) (now : Bytes) :
    (generate_payload P g s c data now).json =
      (let j0 := (g s.dev_type c).command
       let j1 := if hasKey j0 JKey.gwId then setKey j0 JKey.gwId (JVal.str s.id)
         else j0
       let j2 := if hasKey j1 JKey.devId then setKey j1 JKey.devId (JVal.str s.id)
         else j1
       let j3 := if hasKey j2 JKey.uid then setKey j2 JKey.uid (JVal.str s.id)
         else j2
       let j4 := if hasKey j3 JKey.t then setKey j3 JKey.t (JVal.str now) else j3
       let j5 := match data with
         | some dv => setKey j4 JKey.dps dv
         | none => j4
       if (g s.dev_type c).hexByte = 0x0D then setKey j5 JKey.dps s.dps_to_request
       else j5) := rfl

/-- C10: `_generate_payload` mutates the module-level `PAYLOAD_DICT`
templates in place.  After any SET generation with data `dval` on a
type-A session, the shared SET template permanently contains a `dps`
entry, so a later `_generate_payload(SET, None)` — on the same or any
other type-A session, with any primitives and timestamps — serializes a
JSON object still carrying `dps = dval`; against the pristine module
dict the same call carries no `dps` key at all, so payload generation is
not a function of only the session's own state and arguments. -/
theorem C10_shared_template_mutation (P P' : Prims) (s1 s2 : Session)
    (h1 : s1.dev_type = DevType.type_0a) (h2 : s2.dev_type = DevType.type_0a)
    (dval : JVal) (now1 now2 : Bytes) :
    lookupJ (generate_payload P'
        (generate_payload P initialPayloadDict s1 Cmd.set (some dval) now1).gdict
        s2 Cmd.set none now2).json JKey.dps = some dval ∧
    lookupJ (generate_payload P' initialPayloadDict s2 Cmd.set none now2).json
        JKey.dps = none := by
  obtain ⟨id1, lk1, ver1, dt1, dr1, sq1⟩ := s1
  obtain ⟨id2, lk2, ver2, dt2, dr2, sq2⟩ := s2
  dsimp only at h1 h2
  subst h1
  subst h2
  have hg1 : (generate_payload P initialPayloadDict
      ⟨id1, lk1, ver1, DevType.type_0a, dr1, sq1⟩ Cmd.set (some dval) now1).gdict
      DevType.type_0a Cmd.set =
      ⟨7, [(JKey.devId, JVal.str id1), (JKey.uid, JVal.str id1),
        (JKey.t, JVal.str now1), (JKey.dps, dval)]⟩ := rfl
  constructor
  · rw [generate_payload_json]
    dsimp only
    rw [hg1]
    rfl
  · rfl

/-- Witness for C10 at two concrete sessions. -/
theorem C10_shared_template_mutation_witness :
    lookupJ (generate_payload idPrims
        (generate_payload idPrims initialPayloadDict
          ⟨[49], [], Ver.v31, DevType.type_0a, JVal.raw [123, 125], 0⟩
          Cmd.set (some (JVal.raw [116, 114, 117, 101])) [50]).gdict
        ⟨[50], [], Ver.v33, DevType.type_0a, JVal.raw [123, 125], 4⟩
        Cmd.set none [51]).json JKey.dps = some (JVal.raw [116, 114, 117, 101]) ∧
    lookupJ (generate_payload idPrims initialPayloadDict
        ⟨[50], [], Ver.v33, DevType.type_0a, JVal.raw [123, 125], 4⟩
        Cmd.set none [51]).json JKey.dps = none :=
  C10_shared_template_mutation idPrims idPrims
    ⟨[49], [], Ver.v31, DevType.type_0a, JVal.raw [123, 125], 0⟩
    ⟨[50], [], Ver.v33, DevType.type_0a, JVal.raw [123, 125], 4⟩ rfl rfl
    (JVal.raw [116, 114, 117, 101]) [50] [51]

end LocalTuya
